import Mathlib

/-!
Verification of the boxcat client runtime and catbox process harness.

The Go sources are embedded shallowly: each concurrent loop becomes a pure
step function over an explicit state, fed a trace of environment events
(what the scheduler, the connection and the channels did at each iteration).
I/O outcomes (dial, write, build, remove) are oracle parameters, since the
real outcomes come from the operating system.
-/

namespace Boxcat

/-- An IRC message as in github.com/horgh/irc: a command plus parameters.
The optional source field of the codec is irrelevant to this repository's
client code and omitted. -/
structure Message where
  command : String
  params : List String
deriving DecidableEq, Repr

/-- Kind of error posted on the client's error channel. -/
inductive ErrKind where
  | readErr
  | pongErr
  | writeErr
deriving DecidableEq, Repr

/-- Observable events produced by the client loops, in chronological order:
a successful write of a message to the connection, a forward of a message to
the inbound (recv) channel, an error posted on the error channel, and the
closing of the recv channel. -/
inductive Evt where
  | wrote (m : Message)
  | fwd (m : Message)
  | postedErr (k : ErrKind)
  | closedRecv
deriving DecidableEq, Repr

/-- Messages successfully written to the connection, in order. -/
def wroteOf (l : List Evt) : List Message :=
  l.filterMap fun e =>
    match e with
    | .wrote m => some m
    | _ => none

/-- Messages forwarded to the recv channel, in order. -/
def fwdsOf (l : List Evt) : List Message :=
  l.filterMap fun e =>
    match e with
    | .fwd m => some m
    | _ => none

/-- Errors posted to the error channel, in order. -/
def errsOf (l : List Evt) : List ErrKind :=
  l.filterMap fun e =>
    match e with
    | .postedErr k => some k
    | _ => none

/-- Whether the recv channel has been closed. -/
def recvClosedIn (l : List Evt) : Bool :=
  l.any fun e =>
    match e with
    | .closedRecv => true
    | _ => false

/-- Outcome of one readMessage call: a deadline expiry (the bufio read
returned an i/o timeout error), a successfully read and parsed message
(ErrTruncated tolerated), or any other read or parse error. -/
inductive ReadResult where
  | timeout
  | ok (m : Message)
  | fail
deriving DecidableEq, Repr

/-- Environment of one reader-loop iteration: whether the done channel was
observed closed at the top-of-loop select, what readMessage returned, and
whether the PONG write (attempted only for a PING) succeeded. -/
structure Iter where
  done : Bool
  read : ReadResult
  pongOk : Bool
deriving DecidableEq, Repr

/-- State of the reader goroutine: its event log, whether it hit the
out-of-range index m.Params[0] (a Go runtime panic), and whether it
returned. -/
structure RState where
  log : List Evt
  panicked : Bool
  terminated : Bool
deriving DecidableEq, Repr

/-- The PONG reply the reader builds from a PING's first parameter. -/
def pongMsg (p : String) : Message :=
  { command := "PONG", params := [p] }

/-- One iteration of Client.reader. Mirrors the Go loop body: check the
done channel (close recv and return if fired); readMessage; on an i/o
timeout error continue; on any other error post it, close recv and return;
on a PING write back PONG with Params[0] (out of range if Params is empty),
a failed PONG write being posted, closing recv and returning; finally
forward the message to the recv channel. -/
def readerStep (s : RState) (e : Iter) : RState :=
  if s.terminated || s.panicked then s
  else if e.done then
    { s with log := s.log ++ [.closedRecv], terminated := true }
  else
    match e.read with
    | .timeout => s
    | .fail =>
      { s with log := s.log ++ [.postedErr .readErr, .closedRecv],
               terminated := true }
    | .ok m =>
      if m.command = "PING" then
        match m.params.head? with
        | none => { s with panicked := true }
        | some p =>
          if e.pongOk then
            { s with log := s.log ++ [.wrote (pongMsg p), .fwd m] }
          else
            { s with log := s.log ++ [.postedErr .pongErr, .closedRecv],
                     terminated := true }
      else
        { s with log := s.log ++ [.fwd m] }

/-- Run the reader over a trace of iteration environments. -/
def readerRun (s : RState) (evs : List Iter) : RState :=
  evs.foldl readerStep s

/-- Initial reader state. -/
def rinit : RState :=
  { log := [], panicked := false, terminated := false }

/-- A live reader state: not yet returned and not panicked. -/
def RState.live (s : RState) : Prop :=
  s.terminated = false ∧ s.panicked = false

theorem readerRun_nil (s : RState) : readerRun s [] = s := rfl

theorem readerRun_cons (s : RState) (e : Iter) (evs : List Iter) :
    readerRun s (e :: evs) = readerRun (readerStep s e) evs := rfl

theorem readerRun_append (s : RState) (xs ys : List Iter) :
    readerRun s (xs ++ ys) = readerRun (readerRun s xs) ys :=
  List.foldl_append _ _ _ _

/-- C3 -- Keep-alive symmetry: at any live reader state, processing a
successfully parsed message m with a successful reply write appends, for a
PING with first parameter p, exactly the write of PONG [p] followed by the
forward of m itself; for any other command it appends only the forward of
m, unchanged, with no write. -/
theorem reader_ping_pong (s : RState) (m : Message) (e : Iter)
    (hs : s.live) (hd : e.done = false) (hr : e.read = .ok m)
    (hw : e.pongOk = true) :
    (∀ p rest, m.command = "PING" → m.params = p :: rest →
      readerStep s e =
        { s with log := s.log ++ [.wrote (pongMsg p), .fwd m] }) ∧
    (m.command ≠ "PING" →
      readerStep s e = { s with log := s.log ++ [.fwd m] }) := by
  obtain ⟨ht, hp⟩ := hs
  constructor
  · intro p rest hping hparams
    simp [readerStep, ht, hp, hd, hr, hping, hparams, hw]
  · intro hnp
    simp [readerStep, ht, hp, hd, hr, hnp]

/-- Witness for reader_ping_pong at a concrete PING and a concrete PRIVMSG. -/
theorem reader_ping_pong_witness :
    (readerStep rinit
        { done := false, read := .ok { command := "PING", params := ["abc"] },
          pongOk := true } =
      { log := [.wrote (pongMsg "abc"),
                .fwd { command := "PING", params := ["abc"] }],
        panicked := false, terminated := false }) ∧
    (readerStep rinit
        { done := false,
          read := .ok { command := "PRIVMSG", params := ["n", "hi"] },
          pongOk := true } =
      { log := [.fwd { command := "PRIVMSG", params := ["n", "hi"] }],
        panicked := false, terminated := false }) := by
  constructor
  · exact (reader_ping_pong rinit { command := "PING", params := ["abc"] }
      { done := false, read := .ok { command := "PING", params := ["abc"] },
        pongOk := true }
      ⟨rfl, rfl⟩ rfl rfl rfl).1 "abc" [] rfl rfl
  · exact (reader_ping_pong rinit { command := "PRIVMSG", params := ["n", "hi"] }
      { done := false,
        read := .ok { command := "PRIVMSG", params := ["n", "hi"] },
        pongOk := true }
      ⟨rfl, rfl⟩ rfl rfl rfl).2 (by decide)

/-- A reader-loop iteration on which the loop keeps running and forwards
normally: the done channel was not fired, readMessage did not fail, and a
PING carried a parameter and its PONG write succeeded. -/
def cleanIter (e : Iter) : Bool :=
  e.done = false &&
    match e.read with
    | .timeout => true
    | .fail => false
    | .ok m =>
      if m.command = "PING" then !m.params.isEmpty && e.pongOk else true

/-- Messages successfully read off the wire on a trace, in order. -/
def okMsgs (evs : List Iter) : List Message :=
  evs.filterMap fun e =>
    match e.read with
    | .ok m => some m
    | _ => none

/-- The event log a clean trace produces: each read message is forwarded,
preceded by a PONG write when it is a PING. -/
def cleanLog : List Iter → List Evt
  | [] => []
  | e :: evs =>
    (match e.read with
     | .ok m =>
       if m.command = "PING" then
         match m.params.head? with
         | some p => [Evt.wrote (pongMsg p), Evt.fwd m]
         | none => []
       else [Evt.fwd m]
     | _ => []) ++ cleanLog evs

theorem readerStep_terminated (s : RState) (e : Iter)
    (h : s.terminated = true) : readerStep s e = s := by
  simp [readerStep, h]

theorem readerRun_terminated (s : RState) (evs : List Iter)
    (h : s.terminated = true) : readerRun s evs = s := by
  induction evs with
  | nil => rfl
  | cons e evs ih =>
    rw [readerRun_cons, readerStep_terminated s e h]
    exact ih

theorem readerRun_clean (evs : List Iter) (s : RState) (hs : s.live)
    (hclean : ∀ e ∈ evs, cleanIter e = true) :
    readerRun s evs = { s with log := s.log ++ cleanLog evs } := by
  induction evs generalizing s with
  | nil => simp [readerRun_nil, cleanLog]
  | cons e evs ih =>
    obtain ⟨ht, hp⟩ := hs
    have hce : cleanIter e = true := hclean e (List.mem_cons_self e evs)
    have hd : e.done = false := by
      simp [cleanIter, Bool.and_eq_true] at hce
      exact hce.1
    rw [readerRun_cons]
    match hr : e.read with
    | .timeout =>
      have hstep : readerStep s e = s := by
        simp [readerStep, ht, hp, hd, hr]
      rw [hstep, ih s ⟨ht, hp⟩ fun x hx => hclean x (List.mem_cons_of_mem e hx)]
      simp [cleanLog, hr]
    | .fail =>
      exfalso
      simp [cleanIter, hr, Bool.and_eq_true] at hce
    | .ok m =>
      by_cases hping : m.command = "PING"
      · have hcm : m.params ≠ [] ∧ e.pongOk = true := by
          simp [cleanIter, hr, hping, Bool.and_eq_true] at hce
          exact ⟨hce.2.1, hce.2.2⟩
        obtain ⟨p, rest, hparams⟩ : ∃ p rest, m.params = p :: rest := by
          cases hmp : m.params with
          | nil => exact absurd hmp hcm.1
          | cons p rest => exact ⟨p, rest, rfl⟩
        have hstep : readerStep s e =
            { s with log := s.log ++ [.wrote (pongMsg p), .fwd m] } := by
          simp [readerStep, ht, hp, hd, hr, hping, hparams, hcm.2]
        rw [hstep,
          ih { s with log := s.log ++ [.wrote (pongMsg p), .fwd m] }
            ⟨ht, hp⟩ fun x hx => hclean x (List.mem_cons_of_mem e hx)]
        simp [cleanLog, hr, hping, hparams]
      · have hstep : readerStep s e = { s with log := s.log ++ [.fwd m] } := by
          simp [readerStep, ht, hp, hd, hr, hping]
        rw [hstep,
          ih { s with log := s.log ++ [.fwd m] } ⟨ht, hp⟩
            fun x hx => hclean x (List.mem_cons_of_mem e hx)]
        simp [cleanLog, hr, hping]

theorem fwdsOf_append (xs ys : List Evt) :
    fwdsOf (xs ++ ys) = fwdsOf xs ++ fwdsOf ys :=
  List.filterMap_append _ _ _

theorem errsOf_append (xs ys : List Evt) :
    errsOf (xs ++ ys) = errsOf xs ++ errsOf ys :=
  List.filterMap_append _ _ _

theorem fwdsOf_cleanLog (evs : List Iter)
    (hclean : ∀ e ∈ evs, cleanIter e = true) :
    fwdsOf (cleanLog evs) = okMsgs evs := by
  induction evs with
  | nil => rfl
  | cons e evs ih =>
    have hce : cleanIter e = true := hclean e (List.mem_cons_self e evs)
    have ih' := ih fun x hx => hclean x (List.mem_cons_of_mem e hx)
    match hr : e.read with
    | .timeout =>
      simp only [cleanLog, hr, List.nil_append]
      rw [ih']
      simp [okMsgs, hr]
    | .fail =>
      exfalso
      simp [cleanIter, hr, Bool.and_eq_true] at hce
    | .ok m =>
      by_cases hping : m.command = "PING"
      · have hne : m.params ≠ [] := by
          simp [cleanIter, hr, hping, Bool.and_eq_true] at hce
          exact hce.2.1
        obtain ⟨p, rest, hparams⟩ : ∃ p rest, m.params = p :: rest := by
          cases hmp : m.params with
          | nil => exact absurd hmp hne
          | cons p rest => exact ⟨p, rest, rfl⟩
        simp only [cleanLog, hr, hping, if_pos, hparams]
        rw [fwdsOf_append, ih']
        simp [okMsgs, fwdsOf, hr]
      · simp only [cleanLog, hr, hping, if_neg]
        rw [fwdsOf_append, ih']
        simp [okMsgs, fwdsOf, hr]

theorem errsOf_cleanLog (evs : List Iter) :
    errsOf (cleanLog evs) = [] := by
  induction evs with
  | nil => rfl
  | cons e evs ih =>
    match hr : e.read with
    | .timeout => simpa [cleanLog, hr] using ih
    | .fail => simpa [cleanLog, hr] using ih
    | .ok m =>
      by_cases hping : m.command = "PING"
      · cases hmp : m.params.head? with
        | none => simpa [cleanLog, hr, hping, hmp] using ih
        | some p =>
          rw [cleanLog, hr]
          simp only [hping, if_pos, hmp]
          rw [errsOf_append, ih]
          simp [errsOf]
      · rw [cleanLog, hr]
        simp only [hping, if_neg, ite_false]
        rw [errsOf_append, ih]
        simp [errsOf]

theorem recvClosedIn_cleanLog (evs : List Iter) :
    recvClosedIn (cleanLog evs) = false := by
  induction evs with
  | nil => rfl
  | cons e evs ih =>
    match hr : e.read with
    | .timeout => simpa [cleanLog, hr] using ih
    | .fail => simpa [cleanLog, hr] using ih
    | .ok m =>
      by_cases hping : m.command = "PING"
      · cases hmp : m.params.head? with
        | none => simpa [cleanLog, hr, hping, hmp] using ih
        | some p =>
          rw [cleanLog, hr]
          simp only [hping, if_pos, hmp]
          simp [recvClosedIn, List.any_append] at ih ⊢
          exact ih
      · rw [cleanLog, hr]
        simp only [hping, if_neg, ite_false]
        simp [recvClosedIn, List.any_append] at ih ⊢
        exact ih

/-- C2 -- Reader error handling and no-loss-before-failure: a read timeout
leaves a live reader state unchanged (nothing posted anywhere, the loop
retries); and on any trace consisting of clean iterations followed by a
non-timeout read or parse error, the final state has forwarded exactly the
messages read before the failure to the inbound queue, posted exactly one
entry to the error queue, closed the inbound queue, and terminated, with
every later iteration having no effect (the loop never retries after a
fatal error). -/
theorem reader_fatal_error_no_loss (evs : List Iter) (fe : Iter)
    (more : List Iter) (hclean : ∀ e ∈ evs, cleanIter e = true)
    (hfd : fe.done = false) (hfr : fe.read = .fail) :
    (∀ s e, s.live → e.done = false → e.read = .timeout →
      readerStep s e = s) ∧
    fwdsOf (readerRun rinit (evs ++ fe :: more)).log = okMsgs evs ∧
    errsOf (readerRun rinit (evs ++ fe :: more)).log = [.readErr] ∧
    recvClosedIn (readerRun rinit (evs ++ fe :: more)).log = true ∧
    (readerRun rinit (evs ++ fe :: more)).terminated = true ∧
    readerRun rinit (evs ++ fe :: more) = readerRun rinit (evs ++ [fe]) := by
  have habs : ∀ s e, s.live → e.done = false → e.read = .timeout →
      readerStep s e = s := by
    intro s e hs hd hr
    obtain ⟨ht, hp⟩ := hs
    simp [readerStep, ht, hp, hd, hr]
  have h1 : readerRun rinit evs = { rinit with log := cleanLog evs } :=
    readerRun_clean evs rinit ⟨rfl, rfl⟩ hclean
  have hstep : readerStep { rinit with log := cleanLog evs } fe =
      { log := cleanLog evs ++ [.postedErr .readErr, .closedRecv],
        panicked := false, terminated := true } := by
    simp [readerStep, rinit, hfd, hfr]
  have h2 : readerRun rinit (evs ++ fe :: more) =
      { log := cleanLog evs ++ [.postedErr .readErr, .closedRecv],
        panicked := false, terminated := true } := by
    rw [show evs ++ fe :: more = (evs ++ [fe]) ++ more by simp,
      readerRun_append, readerRun_append, h1, readerRun_cons, hstep,
      readerRun_nil, readerRun_terminated _ more rfl]
  have h3 : readerRun rinit (evs ++ [fe]) =
      { log := cleanLog evs ++ [.postedErr .readErr, .closedRecv],
        panicked := false, terminated := true } := by
    rw [readerRun_append, h1, readerRun_cons, hstep, readerRun_nil]
  refine ⟨habs, ?_, ?_, ?_, ?_, ?_⟩
  · rw [h2]
    simp only [fwdsOf_append, fwdsOf_cleanLog evs hclean]
    simp [fwdsOf]
  · rw [h2]
    simp only [errsOf_append, errsOf_cleanLog evs]
    simp [errsOf]
  · rw [h2]
    simp [recvClosedIn, List.any_append]
  · rw [h2]
  · rw [h2, h3]

/-- Witness for reader_fatal_error_no_loss on a concrete trace: a timeout,
a PRIVMSG, a PING with a parameter, then a fatal read error, then a
further (ignored) iteration. -/
theorem reader_fatal_error_no_loss_witness :
    fwdsOf (readerRun rinit
        [{ done := false, read := .timeout, pongOk := true },
         { done := false,
           read := .ok { command := "PRIVMSG", params := ["n", "hi"] },
           pongOk := true },
         { done := false, read := .ok { command := "PING", params := ["s"] },
           pongOk := true },
         { done := false, read := .fail, pongOk := true },
         { done := false,
           read := .ok { command := "NOTICE", params := ["n", "x"] },
           pongOk := true }]).log =
      [{ command := "PRIVMSG", params := ["n", "hi"] },
       { command := "PING", params := ["s"] }] := by
  have h := reader_fatal_error_no_loss
    [{ done := false, read := .timeout, pongOk := true },
     { done := false,
       read := .ok { command := "PRIVMSG", params := ["n", "hi"] },
       pongOk := true },
     { done := false, read := .ok { command := "PING", params := ["s"] },
       pongOk := true }]
    { done := false, read := .fail, pongOk := true }
    [{ done := false,
       read := .ok { command := "NOTICE", params := ["n", "x"] },
       pongOk := true }]
    (by decide) rfl rfl
  exact h.2.1

/-- C10 -- Unchecked index in the PONG reply: the reader builds the reply
from m.Params[0] without checking the list is non-empty. At any live state,
a parsed PING with at least one parameter is handled in bounds (no panic),
while a parsed PING with an empty parameter list reaches the out-of-range
branch of the embedding. -/
theorem reader_ping_empty_params_panics (s : RState) (e : Iter)
    (hs : s.live) (hd : e.done = false) :
    (∀ m p rest, e.read = .ok m → m.command = "PING" →
      m.params = p :: rest → (readerStep s e).panicked = false) ∧
    (e.read = .ok { command := "PING", params := [] } →
      (readerStep s e).panicked = true) := by
  obtain ⟨ht, hp⟩ := hs
  constructor
  · intro m p rest hr hping hparams
    by_cases hw : e.pongOk = true
    · simp [readerStep, ht, hp, hd, hr, hping, hparams, hw]
    · simp at hw
      simp [readerStep, ht, hp, hd, hr, hping, hparams, hw]
  · intro hr
    simp [readerStep, ht, hp, hd, hr]

/-- Witness for reader_ping_empty_params_panics: a PING carrying one
parameter is safe, a PING with no parameters panics. -/
theorem reader_ping_empty_params_panics_witness :
    ((readerStep rinit
        { done := false, read := .ok { command := "PING", params := ["x"] },
          pongOk := true }).panicked = false) ∧
    ((readerStep rinit
        { done := false, read := .ok { command := "PING", params := [] },
          pongOk := true }).panicked = true) := by
  constructor
  · exact (reader_ping_empty_params_panics rinit
      { done := false, read := .ok { command := "PING", params := ["x"] },
        pongOk := true } ⟨rfl, rfl⟩ rfl).1
      { command := "PING", params := ["x"] } "x" [] rfl rfl rfl
  · exact (reader_ping_empty_params_panics rinit
      { done := false, read := .ok { command := "PING", params := [] },
        pongOk := true } ⟨rfl, rfl⟩ rfl).2 rfl

/-- Outcome of the select at the top of one writer-loop iteration: the
done channel case fired; the send channel case fired but the channel was
closed (ok is false); or the send channel case fired delivering message m,
whose write then succeeded or failed. -/
inductive WSel where
  | done
  | recvClosed
  | recv (m : Message) (writeOk : Bool)
deriving DecidableEq, Repr

/-- State of the writer goroutine: its event log and whether it is still
inside the labelled LOOP. -/
structure WState where
  log : List Evt
  looping : Bool
deriving DecidableEq, Repr

/-- One iteration of Client.writer's labelled loop. In Go, a plain break
inside a select terminates only the select statement, not the enclosing
for loop: only the done-channel case uses the labelled break LOOP. So both
the closed-channel branch and the write-error branch fall through back
into the loop, which keeps selecting. -/
def writerStep (s : WState) (e : WSel) : WState :=
  if s.looping then
    match e with
    | .done => { s with looping := false }
    | .recvClosed => s
    | .recv m ok =>
      if ok then { s with log := s.log ++ [.wrote m] }
      else { s with log := s.log ++ [.postedErr .writeErr] }
  else s

/-- Run the writer over a sequence of select outcomes. -/
def writerRun (s : WState) (es : List WSel) : WState :=
  es.foldl writerStep s

/-- Initial writer state. -/
def winit : WState :=
  { log := [], looping := true }

/-- C1 -- Writer after a failed write, evaluated on concrete schedules.
The outbound queue delivers m1 whose write fails, then m2 whose write
succeeds: the failure is posted, yet m2 is still written to the connection
and the loop is still accepting (because the break after posting the error
exits only the select). A second schedule with two failing writes posts
two entries to the error queue. -/
theorem writer_keeps_accepting_after_failure :
    (wroteOf (writerRun winit
        [.recv { command := "PRIVMSG", params := ["n", "a"] } false,
         .recv { command := "PRIVMSG", params := ["n", "b"] } true]).log =
      [{ command := "PRIVMSG", params := ["n", "b"] }] ∧
     errsOf (writerRun winit
        [.recv { command := "PRIVMSG", params := ["n", "a"] } false,
         .recv { command := "PRIVMSG", params := ["n", "b"] } true]).log =
      [.writeErr] ∧
     (writerRun winit
        [.recv { command := "PRIVMSG", params := ["n", "a"] } false,
         .recv { command := "PRIVMSG", params := ["n", "b"] } true]).looping =
      true) ∧
    errsOf (writerRun winit
        [.recv { command := "PRIVMSG", params := ["n", "a"] } false,
         .recv { command := "PRIVMSG", params := ["n", "b"] } false]).log =
      [.writeErr, .writeErr] := by
  decide

/-- Remaining behaviour of the writer once stop has closed both the done
channel and the send channel: every select has both cases ready, and the
oracle says whether the select at step k picks the done case. Picking the
send case consumes a buffered message if any (writing it, or posting on a
failed write — either way the loop continues) or sees the channel closed.
Returns true when the labelled loop has been exited within the given
number of steps (after which the trailing drain-and-discard range loop
consumes the finite residue and the goroutine returns). -/
def writerShutdown (pending : List Message) (choices : Nat → Bool) :
    Nat → Bool
  | 0 => false
  | fuel + 1 =>
    if choices 0 then true
    else writerShutdown pending.tail (fun n => choices (n + 1)) fuel

theorem writerShutdown_of_choice :
    ∀ (n : Nat) (pending : List Message) (choices : Nat → Bool),
      choices n = true → writerShutdown pending choices (n + 1) = true := by
  intro n
  induction n with
  | zero =>
    intro pending choices h
    simp [writerShutdown, h]
  | succ n ih =>
    intro pending choices h
    by_cases h0 : choices 0 = true
    · simp [writerShutdown, h0]
    · have hrec : writerShutdown pending.tail (fun k => choices (k + 1))
          (n + 1) = true := ih pending.tail (fun k => choices (k + 1)) h
      rw [show writerShutdown pending choices (n + 1 + 1) =
          if choices 0 then true
          else writerShutdown pending.tail (fun k => choices (k + 1)) (n + 1)
        from rfl]
      rw [if_neg h0]
      exact hrec

/-- C7 -- Shutdown liveness. After stop fires the shutdown signal and
closes the outbound queue, the writer exits its loop as soon as a select
picks the ready done-channel case (Go's select chooses uniformly at random
among ready cases, so some step picks it with probability one), no matter
how many unsent messages were pending; and a reader that was mid-retry on
a read timeout exits at its next top-of-loop check of the done channel. So
the wait in stop returns, and stop, being a straight-line sequence after
that wait, returns. -/
theorem stop_always_returns (pending : List Message) (choices : Nat → Bool)
    (n : Nat) (hn : choices n = true) (s : RState) (hs : s.live)
    (r : ReadResult) (b b' : Bool) :
    writerShutdown pending choices (n + 1) = true ∧
    (readerRun s
        [{ done := false, read := .timeout, pongOk := b },
         { done := true, read := r, pongOk := b' }]).terminated = true := by
  obtain ⟨ht, hp⟩ := hs
  refine ⟨writerShutdown_of_choice n pending choices hn, ?_⟩
  have h1 : readerStep s { done := false, read := .timeout, pongOk := b } =
      s := by
    simp [readerStep, ht, hp]
  rw [readerRun_cons, h1, readerRun_cons]
  have h2 : readerStep s { done := true, read := r, pongOk := b' } =
      { s with log := s.log ++ [.closedRecv], terminated := true } := by
    simp [readerStep, ht, hp]
  rw [h2, readerRun_nil]

/-- Witness for stop_always_returns: three pending messages, a select
oracle that picks the done case at step 2, and a fresh reader. -/
theorem stop_always_returns_witness :
    writerShutdown
        [{ command := "PRIVMSG", params := ["n", "a"] },
         { command := "PRIVMSG", params := ["n", "b"] },
         { command := "PRIVMSG", params := ["n", "c"] }]
        (fun k => k == 2) (2 + 1) = true ∧
    (readerRun rinit
        [{ done := false, read := .timeout, pongOk := true },
         { done := true, read := .timeout, pongOk := true }]).terminated =
      true :=
  stop_always_returns
    [{ command := "PRIVMSG", params := ["n", "a"] },
     { command := "PRIVMSG", params := ["n", "b"] },
     { command := "PRIVMSG", params := ["n", "c"] }]
    (fun k => k == 2) 2 rfl rinit ⟨rfl, rfl⟩ .timeout true true

/-- Actions Client.start performs, in chronological order: the dial, a
write attempt of a registration message with its outcome, closing the
connection on a failed registration write, allocating the three channels,
and launching the reader and the writer goroutines. -/
inductive StartAct where
  | dial
  | writeAttempt (m : Message) (ok : Bool)
  | connClose
  | makeChans
  | spawnReader
  | spawnWriter
deriving DecidableEq, Repr

/-- The NICK registration message. -/
def nickMsg (nick : String) : Message :=
  { command := "NICK", params := [nick] }

/-- The USER registration message. -/
def userMsg (nick : String) : Message :=
  { command := "USER", params := [nick, "0", "*", nick] }

/-- Client.start. Mirrors the Go control flow: connect (return the error
on failure); write NICK, closing the connection and returning the error on
failure; write USER likewise; then allocate recvChan, sendChan and errChan
and launch the reader and writer goroutines. The second component is some
when the three channels were created and returned, and none when start
returned an error and all three returned channel values are nil. The dial
and write outcomes are oracle parameters. -/
def start (nick : String) (dialOk nickOk userOk : Bool) :
    List StartAct × Option Unit :=
  if dialOk = false then ([.dial], none)
  else if nickOk = false then
    ([.dial, .writeAttempt (nickMsg nick) false, .connClose], none)
  else if userOk = false then
    ([.dial, .writeAttempt (nickMsg nick) true,
      .writeAttempt (userMsg nick) false, .connClose], none)
  else
    ([.dial, .writeAttempt (nickMsg nick) true,
      .writeAttempt (userMsg nick) true,
      .makeChans, .spawnReader, .spawnWriter], some ())

/-- Messages successfully written during start, in order. -/
def regWritesOf (tr : List StartAct) : List Message :=
  tr.filterMap fun a =>
    match a with
    | .writeAttempt m true => some m
    | _ => none

/-- Whether a start action is a write attempt. -/
def StartAct.isWriteAttempt : StartAct → Bool
  | .writeAttempt _ _ => true
  | _ => false

/-- Whether a start action launches one of the two loop goroutines. -/
def StartAct.isSpawn : StartAct → Bool
  | .spawnReader => true
  | .spawnWriter => true
  | _ => false

/-- C4 -- Registration ordering: on a successful start the channels are
returned, the messages written are exactly NICK [nick] then
USER [nick, 0, *, nick] in that order, and every write attempt occurs
strictly before either loop goroutine is launched, so the two registration
writes precede every caller-submitted outbound message on the wire. -/
theorem start_registration_before_loops (nick : String) :
    (start nick true true true).2 = some () ∧
    regWritesOf (start nick true true true).1 =
      [nickMsg nick, userMsg nick] ∧
    ∀ i j, (∃ m ok, (start nick true true true).1.get? i =
        some (StartAct.writeAttempt m ok)) →
      ((start nick true true true).1.get? j = some StartAct.spawnReader ∨
       (start nick true true true).1.get? j = some StartAct.spawnWriter) →
      i < j := by
  refine ⟨rfl, rfl, ?_⟩
  intro i j ha hb
  obtain ⟨m, ok, ha⟩ := ha
  simp only [start, if_neg, Bool.true_eq_false, not_false_eq_true,
    reduceIte] at ha hb
  have hi : i < 6 := by
    by_contra hge
    push_neg at hge
    rw [List.get?_eq_none.mpr (by simpa using hge)] at ha
    exact Option.noConfusion ha
  have hj : j < 6 := by
    by_contra hge
    push_neg at hge
    rcases hb with hb | hb <;>
      rw [List.get?_eq_none.mpr (by simpa using hge)] at hb <;>
      exact Option.noConfusion hb
  interval_cases i <;> interval_cases j <;> first | omega | simp_all

/-- Witness for start_registration_before_loops at nick alice, checking
the write at index 2 precedes the spawn at index 4. -/
theorem start_registration_before_loops_witness :
    (start "alice" true true true).2 = some () ∧
    regWritesOf (start "alice" true true true).1 =
      [nickMsg "alice", userMsg "alice"] ∧
    (2 : Nat) < 4 := by
  have h := start_registration_before_loops "alice"
  exact ⟨h.1, h.2.1,
    h.2.2 2 4 ⟨userMsg "alice", true, by decide⟩ (Or.inl (by decide))⟩

/-- C5 -- Synchronous failure of a registration write: when the dial
succeeds but the NICK or the USER write fails, start closes the connection
and returns with all three channel values nil, never having allocated the
channels or launched a goroutine. -/
theorem start_reg_write_failure (nick : String) (nickOk userOk : Bool)
    (h : nickOk = false ∨ userOk = false) :
    (start nick true nickOk userOk).2 = none ∧
    StartAct.connClose ∈ (start nick true nickOk userOk).1 ∧
    StartAct.makeChans ∉ (start nick true nickOk userOk).1 ∧
    StartAct.spawnReader ∉ (start nick true nickOk userOk).1 ∧
    StartAct.spawnWriter ∉ (start nick true nickOk userOk).1 := by
  rcases h with h | h
  · subst h
    simp [start]
  · subst h
    cases nickOk <;> simp [start]

/-- Witness for start_reg_write_failure: the USER write fails. -/
theorem start_reg_write_failure_witness :
    (start "alice" true true false).2 = none ∧
    StartAct.connClose ∈ (start "alice" true true false).1 ∧
    StartAct.makeChans ∉ (start "alice" true true false).1 ∧
    StartAct.spawnReader ∉ (start "alice" true true false).1 ∧
    StartAct.spawnWriter ∉ (start "alice" true true false).1 :=
  start_reg_write_failure "alice" true false (Or.inr rfl)

theorem reader_step_closes_recv (s : RState) (e : Iter)
    (h : s.terminated = true → recvClosedIn s.log = true) :
    (readerStep s e).terminated = true →
      recvClosedIn (readerStep s e).log = true := by
  by_cases ht : s.terminated = true
  · rw [readerStep_terminated s e ht]
    exact h
  · have ht' : s.terminated = false := by
      cases hc : s.terminated
      · rfl
      · exact absurd hc ht
    cases hp : s.panicked with
    | true =>
      intro hterm
      simp [readerStep, ht', hp] at hterm
    | false =>
      cases hd : e.done with
      | true =>
        intro _
        simp [readerStep, ht', hp, hd, recvClosedIn, List.any_append]
      | false =>
        match hr : e.read with
        | .timeout =>
          intro hterm
          simp [readerStep, ht', hp, hd, hr] at hterm
        | .fail =>
          intro _
          simp [readerStep, ht', hp, hd, hr, recvClosedIn, List.any_append]
        | .ok m =>
          by_cases hping : m.command = "PING"
          · cases hmp : m.params.head? with
            | none =>
              intro hterm
              simp [readerStep, ht', hp, hd, hr, hping, hmp] at hterm
            | some p =>
              cases hw : e.pongOk with
              | true =>
                intro hterm
                simp [readerStep, ht', hp, hd, hr, hping, hmp, hw] at hterm
              | false =>
                intro _
                simp [readerStep, ht', hp, hd, hr, hping, hmp, hw,
                  recvClosedIn, List.any_append]
          · intro hterm
            simp [readerStep, ht', hp, hd, hr, hping] at hterm

/-- The reader closes the recv channel on every path on which it returns:
seeing the done channel fired, a fatal read or parse error, and a failed
PONG write all append the close before returning. -/
theorem reader_closes_recv (evs : List Iter) :
    (readerRun rinit evs).terminated = true →
      recvClosedIn (readerRun rinit evs).log = true := by
  suffices h : ∀ s : RState,
      (s.terminated = true → recvClosedIn s.log = true) →
      (readerRun s evs).terminated = true →
        recvClosedIn (readerRun s evs).log = true by
    exact h rinit (by intro hc; exact absurd hc (by simp [rinit]))
  induction evs with
  | nil =>
    intro s hs
    exact hs
  | cons e evs ih =>
    intro s hs
    rw [readerRun_cons]
    exact ih (readerStep s e) (reader_step_closes_recv s e hs)

/-- Channel-level state of a started client: whether the done, send, recv,
error channels are closed, their buffered contents, whether the underlying
connection is closed, and whether both loop goroutines have returned. -/
structure ClientChans where
  doneClosed : Bool
  sendClosed : Bool
  sendBuf : List Message
  recvClosed : Bool
  recvBuf : List Message
  errClosed : Bool
  errBuf : List ErrKind
  connClosed : Bool
  loopsDone : Bool
deriving DecidableEq, Repr

/-- The operations Client.stop performs, in chronological order. -/
inductive StopAct where
  | fireShutdown
  | closeOutbound
  | waitLoops
  | closeError
  | closeConn
  | drainInbound
  | drainError
deriving DecidableEq, Repr

/-- Client.stop, line by line: close the done channel; close the send
channel; wg.Wait until the reader and writer have returned (the recv
channel is then in whatever closed state the reader left it, and the
writer has drained the send buffer); close the error channel; close the
connection; drain and discard the recv channel; drain and discard the
error channel. The parameter rs is the reader's state at the time its
goroutine returned. -/
def clientStop (rs : RState) (s : ClientChans) :
    List StopAct × ClientChans :=
  let s1 := { s with doneClosed := true }
  let s2 := { s1 with sendClosed := true }
  let s3 := { s2 with loopsDone := true, sendBuf := [],
                      recvClosed := recvClosedIn rs.log }
  let s4 := { s3 with errClosed := true }
  let s5 := { s4 with connClosed := true }
  let s6 := { s5 with recvBuf := [] }
  let s7 := { s6 with errBuf := [] }
  ([.fireShutdown, .closeOutbound, .waitLoops, .closeError, .closeConn,
    .drainInbound, .drainError], s7)

/-- C6 -- stop performs, in order: fire the shutdown signal, close the
outbound queue, wait for both loops, close the error queue, close the
connection, then drain the inbound and error queues; and once the reader
goroutine has returned at the wait, the inbound queue is closed (the
reader closes it on every exit path), so when stop returns both the
inbound and error queues are closed and empty. -/
theorem client_stop_order_and_drained (evs : List Iter) (s : ClientChans)
    (hterm : (readerRun rinit evs).terminated = true) :
    (clientStop (readerRun rinit evs) s).1 =
      [.fireShutdown, .closeOutbound, .waitLoops, .closeError, .closeConn,
       .drainInbound, .drainError] ∧
    (clientStop (readerRun rinit evs) s).2.recvClosed = true ∧
    (clientStop (readerRun rinit evs) s).2.recvBuf = [] ∧
    (clientStop (readerRun rinit evs) s).2.errClosed = true ∧
    (clientStop (readerRun rinit evs) s).2.errBuf = [] ∧
    (clientStop (readerRun rinit evs) s).2.connClosed = true ∧
    (clientStop (readerRun rinit evs) s).2.loopsDone = true := by
  refine ⟨rfl, ?_, rfl, rfl, rfl, rfl, rfl⟩
  exact reader_closes_recv evs hterm

/-- Witness for client_stop_order_and_drained: the reader saw the shutdown
signal at its first iteration, the channels start in a dirty state. -/
theorem client_stop_order_and_drained_witness :
    (clientStop
        (readerRun rinit [{ done := true, read := .timeout, pongOk := true }])
        { doneClosed := false, sendClosed := false,
          sendBuf := [{ command := "PRIVMSG", params := ["n", "a"] }],
          recvClosed := false,
          recvBuf := [{ command := "PING", params := ["s"] }],
          errClosed := false, errBuf := [.readErr], connClosed := false,
          loopsDone := false }).2.recvClosed = true ∧
    (clientStop
        (readerRun rinit [{ done := true, read := .timeout, pongOk := true }])
        { doneClosed := false, sendClosed := false,
          sendBuf := [{ command := "PRIVMSG", params := ["n", "a"] }],
          recvClosed := false,
          recvBuf := [{ command := "PING", params := ["s"] }],
          errClosed := false, errBuf := [.readErr], connClosed := false,
          loopsDone := false }).2.errBuf = [] := by
  have h := client_stop_order_and_drained
    [{ done := true, read := .timeout, pongOk := true }]
    { doneClosed := false, sendClosed := false,
      sendBuf := [{ command := "PRIVMSG", params := ["n", "a"] }],
      recvClosed := false,
      recvBuf := [{ command := "PING", params := ["s"] }],
      errClosed := false, errBuf := [.readErr], connClosed := false,
      loopsDone := false } (by decide)
  exact ⟨h.2.1, h.2.2.2.2.1⟩

/-- State of one harnessed catbox: whether the child process is running,
whether each of the three background tasks (the two logReader drains and
the Command.Wait exit-wait) has returned, and whether the temporary
configuration directory exists. -/
structure CatboxState where
  processRunning : Bool
  drainStderrDone : Bool
  drainStdoutDone : Bool
  exitWaitDone : Bool
  configDirExists : Bool
deriving DecidableEq, Repr

/-- The operations Catbox.stop performs, in chronological order. -/
inductive HAct where
  | killProc
  | waitTasks
  | removeDir
deriving DecidableEq, Repr

/-- Catbox.stop, line by line. Process.Kill forcibly terminates the child
(a kill error is only logged; it arises when the child has already exited,
in which case it is equally not running afterwards). WaitGroup.Wait then
blocks until all three background tasks return: the dead child's pipes hit
end of stream, so both logReader loops return, and Command.Wait returns.
Finally os.RemoveAll deletes the configuration directory; on a removal
error log.Fatalf aborts the whole process, so stop does not return
(modelled as none). -/
def catboxStop (s : CatboxState) (removeOk : Bool) :
    Option (List HAct × CatboxState) :=
  let s1 := { s with processRunning := false }
  let s2 := { s1 with drainStderrDone := true, drainStdoutDone := true,
                      exitWaitDone := true }
  if removeOk then
    some ([.killProc, .waitTasks, .removeDir],
          { s2 with configDirExists := false })
  else none

/-- C8 -- Harness teardown: stop kills the child, then waits for the two
log drains and the exit-wait, then removes the configuration directory,
in that order; and whenever stop returns (the removal did not abort the
process), the child is not running, all three background tasks have
completed, and the configuration directory no longer exists. -/
theorem catbox_stop_teardown (s : CatboxState) (removeOk : Bool)
    (h : removeOk = true) :
    ∃ s2, catboxStop s removeOk =
        some ([.killProc, .waitTasks, .removeDir], s2) ∧
      s2.processRunning = false ∧ s2.configDirExists = false ∧
      s2.drainStderrDone = true ∧ s2.drainStdoutDone = true ∧
      s2.exitWaitDone = true := by
  subst h
  exact ⟨_, rfl, rfl, rfl, rfl, rfl, rfl⟩

/-- Witness for catbox_stop_teardown from a fully live harness state. -/
theorem catbox_stop_teardown_witness :
    ∃ s2, catboxStop
        { processRunning := true, drainStderrDone := false,
          drainStdoutDone := false, exitWaitDone := false,
          configDirExists := true } true =
        some ([.killProc, .waitTasks, .removeDir], s2) ∧
      s2.processRunning = false ∧ s2.configDirExists = false ∧
      s2.drainStderrDone = true ∧ s2.drainStdoutDone = true ∧
      s2.exitWaitDone = true :=
  catbox_stop_teardown
    { processRunning := true, drainStderrDone := false,
      drainStdoutDone := false, exitWaitDone := false,
      configDirExists := true } true rfl

/-- One call of buildCatbox against the package-level builtCatbox flag:
if the flag is set, return immediately without running go build; else run
go build with the given outcome, setting the flag only on success. The
result is (new flag, whether the build command ran, whether buildCatbox
returned without error). -/
def buildCatbox (builtFlag : Bool) (buildOk : Bool) : Bool × Bool × Bool :=
  if builtFlag then (builtFlag, false, true)
  else if buildOk then (true, true, true)
  else (false, true, false)

/-- A sequence of harnessCatbox calls in one process, each invoking
buildCatbox with that call's go-build outcome. Returns the final flag and
how many times the build command was executed. -/
def buildSeq (flag : Bool) : List Bool → Bool × Nat
  | [] => (flag, 0)
  | ok :: rest =>
    let step := buildCatbox flag ok
    let t := buildSeq step.1 rest
    (t.1, (if step.2.1 then 1 else 0) + t.2)

/-- How many build-command executions in a call sequence succeeded. -/
def buildSuccs (flag : Bool) : List Bool → Nat
  | [] => 0
  | ok :: rest =>
    let step := buildCatbox flag ok
    (if step.2.1 && ok then 1 else 0) + buildSuccs step.1 rest

/-- C9 counterexample -- the build command is not executed at most once
for every call sequence: two harness-constructor calls whose go build
fails both run the build command, because a failed build leaves the
package-level flag unset. -/
theorem build_twice_on_failures :
    ¬(buildSeq false [false, false]).2 ≤ 1 := by
  decide

theorem buildSeq_flag_set (outs : List Bool) :
    buildSeq true outs = (true, 0) := by
  induction outs with
  | nil => rfl
  | cons ok rest ih =>
    simp [buildSeq, buildCatbox, ih]

theorem buildSuccs_flag_set (outs : List Bool) :
    buildSuccs true outs = 0 := by
  induction outs with
  | nil => rfl
  | cons ok rest ih =>
    simp [buildSuccs, buildCatbox, ih]

/-- C9 amended -- Idempotent build, as the flag actually behaves: once the
flag is set every further call runs no build; at most one build execution
in any call sequence succeeds; and when every go build succeeds, the build
command is executed at most once in the whole sequence. -/
theorem build_memoized (outs : List Bool) (hok : ∀ b ∈ outs, b = true) :
    (∀ rest : List Bool, buildSeq true rest = (true, 0)) ∧
    (∀ (flag : Bool) (os : List Bool), buildSuccs flag os ≤ 1) ∧
    (buildSeq false outs).2 ≤ 1 := by
  refine ⟨buildSeq_flag_set, ?_, ?_⟩
  · intro flag os
    induction os generalizing flag with
    | nil => simp [buildSuccs]
    | cons ok rest ih =>
      cases flag with
      | true => simp [buildSuccs_flag_set]
      | false =>
        cases ok with
        | true =>
          simp [buildSuccs, buildCatbox, buildSuccs_flag_set]
        | false =>
          simpa [buildSuccs, buildCatbox] using ih false
  · cases outs with
    | nil => simp [buildSeq]
    | cons ok rest =>
      have hok1 : ok = true := hok ok (List.mem_cons_self ok rest)
      subst hok1
      simp [buildSeq, buildCatbox, buildSeq_flag_set]

/-- Witness for build_memoized: three calls, all of whose builds succeed,
execute the build once. -/
theorem build_memoized_witness :
    buildSeq true [true, false] = (true, 0) ∧
    buildSuccs false [false, true, true] ≤ 1 ∧
    (buildSeq false [true, true, true]).2 ≤ 1 := by
  have h := build_memoized [true, true, true] (by decide)
  exact ⟨h.1 [true, false], h.2.1 false [false, true, true], h.2.2⟩

end Boxcat
